import Mathlib

/-
  Verification of the MarketScannerPros core against its specification.

  The definitions below are a shallow embedding of the Python source:
  src/app.py (indicators, score_row, position_sizing, scan_universe,
  min_bars_required, run_backtest) and src/api/scanner_core.py.
  Machine floats are modelled as rational numbers; values that can be
  NaN in pandas (warm-up windows, 0/0) are modelled as Option values,
  with none playing the role of NaN.  Pandas comparison semantics
  (NaN compared to anything is False) are captured by oGT / oLT below.
-/

namespace MSP

/-- NaN-aware strict greater-than: mirrors the float comparison x > y used in
score_row, which is False whenever either side is NaN (modelled as none). -/
def oGT : Option ℚ → Option ℚ → Bool
  | some x, some y => decide (y < x)
  | _, _ => false

/-- NaN-aware strict less-than, False whenever either side is NaN. -/
def oLT : Option ℚ → Option ℚ → Bool
  | some x, some y => decide (x < y)
  | _, _ => false

/-- One row of the feature table built by compute_features (src/app.py:1396
and src/api/scanner_core.py:391).  Raw candle columns are total; derived
columns that are NaN during warm-up are Option-valued. -/
structure FeatureRow where
  close : ℚ
  high : ℚ
  low : ℚ
  volume : ℚ
  ema50 : Option ℚ
  ema200 : Option ℚ
  rsi : Option ℚ
  macd_hist : Option ℚ
  atr : Option ℚ
  bb_width : Option ℚ
  bb_width_ma : Option ℚ
  vol_z : Option ℚ
  close_20_max : Option ℚ
  close_20_min : Option ℚ
  deriving DecidableEq, Repr

/-- The atr_pct intermediate of score_row (src/app.py:1428): NaN unless atr
is defined and close is truthy (nonzero). -/
def atr_pct (r : FeatureRow) : Option ℚ :=
  match r.atr with
  | some a => if r.close = 0 then none else some (a / r.close)
  | none => none

/-- score_row from src/app.py:1419-1432 (identical in
src/api/scanner_core.py:416-430), summand for summand in source order;
0.5 is written 1/2 and 0.04 is written 1/25. -/
def score_row (r : FeatureRow) : ℚ :=
  (if oGT (some r.close) r.ema200 then 25 else -25)
  + (if oGT (some r.close) r.close_20_max then 25 else 0)
  - (if oLT (some r.close) r.close_20_min then 25 else 0)
  + (if oGT r.rsi (some 50) then 10 else -10)
  + (if oGT r.macd_hist (some 0) then 10 else -10)
  + (if oGT r.vol_z (some (1/2)) then 8 else 0)
  + (if oGT r.bb_width r.bb_width_ma then 7 else 0)
  + (if oLT (atr_pct r) (some (1/25)) then 5 else 0)
  - (if oGT r.rsi (some 80) then 10 else 0)
  + (if oLT r.rsi (some 20) then 10 else 0)

/-- Direction assignment of the scanner (src/app.py:1464):
Bullish (the Long of the spec) exactly when the score is nonnegative. -/
def scanDirection (sc : ℚ) : String :=
  if 0 ≤ sc then "Bullish" else "Bearish"

/-- The weighted-rule sum exactly as the spec section 4.4 table words it,
over plain (all-defined) field values.  Stated from the spec, to be compared
with score_row, which is stated from the source. -/
def specScore (close ema200 hi20 lo20 rsi macd vz bw bwm atr : ℚ) : ℚ :=
  (if ema200 < close then 25 else -25)
  + (if hi20 < close then 25 else 0)
  + (if close < lo20 then -25 else 0)
  + (if 50 < rsi then 10 else -10)
  + (if 0 < macd then 10 else -10)
  + (if 1/2 < vz then 8 else 0)
  + (if bwm < bw then 7 else 0)
  + (if atr / close < 1/25 then 5 else 0)
  + (if 80 < rsi then -10 else 0)
  + (if rsi < 20 then 10 else 0)

/-- Result quadruple of position_sizing (src/app.py:1435-1444), fields in
the source return order (size_units, risk_dollars, notional, stop_price). -/
structure SizingResult where
  size_units : ℤ
  risk_dollars : ℚ
  notional : ℚ
  stop_price : ℚ
  deriving DecidableEq, Repr

/-- position_sizing from src/app.py:1435-1444.  The function is total:
the per_unit_risk ≤ 0 branch returns 0 units rather than raising. -/
def position_sizing (close atr : ℚ) (direction : String)
    (account_equity risk_pct stop_mult : ℚ) : SizingResult :=
  let stop_price := if direction = "Bullish" then close - stop_mult * atr
                    else close + stop_mult * atr
  let per_unit_risk := |close - stop_price|
  let risk_dollars := account_equity * risk_pct
  let size_units : ℤ := if per_unit_risk ≤ 0 then 0 else ⌊risk_dollars / per_unit_risk⌋
  { size_units := size_units
    risk_dollars := risk_dollars
    notional := size_units * close
    stop_price := stop_price }

/-- The str.lower() applied by min_bars_required to its argument,
character for character (the timeframe spellings involved are ASCII). -/
def strLower (s : String) : String :=
  String.mk (s.data.map Char.toLower)

/-- min_bars_required from src/app.py:568-574.  A pure function of the
timeframe string alone; the argument is lowercased first as in the source. -/
def min_bars_required (tf : String) : ℕ :=
  let t := strLower tf
  if t = "1d" ∨ t = "d" then 210
  else if t = "1h" ∨ t = "60m" then 350
  else if t = "30m" ∨ t = "15m" then 500
  else if t = "5m" ∨ t = "1m" then 700
  else 210

/-- Successive differences of a series, the pandas s.diff() used by _rsi
(src/app.py:1383, src/api/scanner_core.py:374) with its leading NaN dropped:
element i is close (i+1) minus close i. -/
def diffs (l : List ℚ) : List ℚ :=
  List.zipWith (fun a b => b - a) l l.tail

/-- Last value of the pandas recursion s.ewm(alpha, adjust=False).mean():
seed is the first element, then y = (1-alpha)*y + alpha*x; none on an empty
series (the all-NaN case). -/
def ewmAlpha (al : ℚ) : List ℚ → Option ℚ
  | [] => none
  | x :: rest => some (rest.foldl (fun acc y => (1 - al) * acc + al * y) x)

/-- Wilder average gain of _rsi (src/app.py:1384): clip differences below
at 0, then ewm with alpha = 1/14. -/
def avgGain (closes : List ℚ) : Option ℚ :=
  ewmAlpha (1/14) ((diffs closes).map fun d => max d 0)

/-- Wilder average loss of _rsi (src/app.py:1385): clip differences above
at 0, negate, then ewm with alpha = 1/14. -/
def avgLoss (closes : List ℚ) : Option ℚ :=
  ewmAlpha (1/14) ((diffs closes).map fun d => max (-d) 0)

/-- RSI of the last bar, from _rsi (src/app.py:1382-1387): rs = up/dn and
rsi = 100 - 100/(1+rs), with the IEEE float division semantics of the
source made explicit: dn > 0 gives a finite value; up > 0 with dn = 0 gives
rs = +infinity hence rsi = 100; up = dn = 0 gives rs = 0/0 = NaN hence
rsi = NaN (none); a series with no differences is NaN (none). -/
def rsiLast (closes : List ℚ) : Option ℚ :=
  match avgGain closes, avgLoss closes with
  | some up, some dn =>
      if dn = 0 then (if up = 0 then none else some 100)
      else some (100 - 100 / (1 + up / dn))
  | _, _ => none

/-- Maximum of a window, total on nonempty lists: the rolling .max()
aggregation of pandas ignores nothing here since windows hold no NaN. -/
def windowMax : List ℚ → Option ℚ
  | [] => none
  | x :: xs => some (xs.foldl max x)

/-- Minimum of a window, total on nonempty lists. -/
def windowMin : List ℚ → Option ℚ
  | [] => none
  | x :: xs => some (xs.foldl min x)

/-- Value at index i of the pandas series l.rolling(n).max(), the
close_20_max column of compute_features (src/app.py:1413): NaN (none) while
fewer than n observations exist, else the maximum of the n-bar window that
ends at, and includes, index i. -/
def rollMax (n : ℕ) (l : List ℚ) (i : ℕ) : Option ℚ :=
  if i + 1 < n then none else windowMax ((l.take (i + 1)).drop (i + 1 - n))

/-- Value at index i of l.rolling(n).min(), the close_20_min column of
compute_features (src/app.py:1414). -/
def rollMin (n : ℕ) (l : List ℚ) (i : ℕ) : Option ℚ :=
  if i + 1 < n then none else windowMin ((l.take (i + 1)).drop (i + 1 - n))

/-- One OHLCV candle of a fetched series (the canonical row schema of
get_ohlcv in src/app.py). -/
structure Candle where
  open_price : ℚ
  high : ℚ
  low : ℚ
  close : ℚ
  volume : ℚ
  deriving DecidableEq, Repr

/-- Python round(x, d) on a rational.  Ties are rounded half-away-from-zero
here while CPython rounds half-to-even; no claim below depends on the value
of a rounded field, only on which rows and errors exist. -/
def roundTo (d : ℕ) (x : ℚ) : ℚ :=
  (round (x * 10 ^ d) : ℤ) / 10 ^ d

/-- dollar_volume from src/app.py:576-577: mean of close times volume over
the last 20 bars.  On an empty series pandas yields NaN; here 0/0 = 0; the
only caller checks a 210-bar minimum first, so that case is unreachable. -/
def dollar_volume (df : List Candle) : ℚ :=
  let l := (df.map fun c => c.close * c.volume).drop (df.length - 20)
  l.sum / (l.length : ℚ)

/-- A feature row in which every derived column is defined: exactly the
rows that survive compute_features(df).dropna() in the scanner and the
backtester (dropna drops any row holding a NaN). -/
structure DRow where
  close : ℚ
  high : ℚ
  low : ℚ
  volume : ℚ
  ema50 : ℚ
  ema200 : ℚ
  rsi : ℚ
  macd_hist : ℚ
  atr : ℚ
  bb_width : ℚ
  bb_width_ma : ℚ
  vol_z : ℚ
  close_20_max : ℚ
  close_20_min : ℚ
  deriving DecidableEq, Repr

/-- View a fully-defined feature row as a FeatureRow (every Option some). -/
def DRow.toRow (d : DRow) : FeatureRow :=
  { close := d.close, high := d.high, low := d.low, volume := d.volume
    ema50 := some d.ema50, ema200 := some d.ema200, rsi := some d.rsi
    macd_hist := some d.macd_hist, atr := some d.atr
    bb_width := some d.bb_width, bb_width_ma := some d.bb_width_ma
    vol_z := some d.vol_z, close_20_max := some d.close_20_max
    close_20_min := some d.close_20_min }

/-- One success row appended by scan_universe (src/app.py:1470-1485),
field for field. -/
structure ScanRow where
  symbol : String
  timeframe : String
  close : ℚ
  score : ℚ
  direction : String
  rsi : ℚ
  atr : ℚ
  ema50_gt_200 : Bool
  bb_width : ℚ
  vol_z : ℚ
  stop : ℚ
  size : ℤ
  risk_dollars : ℚ
  notional_dollars : ℚ
  deriving DecidableEq, Repr

/-- One error row appended by scan_universe (src/app.py:1487). -/
structure ScanErr where
  symbol : String
  timeframe : String
  error : String
  deriving DecidableEq, Repr

/-- The body of the per-symbol try block of scan_universe
(src/app.py:1451-1487).  fetch stands for get_ohlcv (the only network
call, its outcome external input); features stands for
compute_features(df).dropna(), whose Bollinger standard deviation needs a
real square root and is therefore kept as a parameter producing the
defined rows; everything after those two calls is embedded concretely.
An exception anywhere becomes the error value. -/
def scanOne (fetch : String → Except String (List Candle))
    (features : List Candle → List DRow)
    (tf : String) (is_crypto : Bool)
    (account_equity risk_pct stop_mult min_vol : ℚ)
    (sym : String) : Except String ScanRow :=
  match fetch sym with
  | .error e => .error e
  | .ok df =>
    if df.length < min_bars_required tf then
      .error "Not enough history"
    else if is_crypto = false ∧ dollar_volume df < min_vol then
      .error "Below min dollar vol"
    else
      match (features df).getLast? with
      | none => .error "Features empty after dropna"
      | some last =>
        let sc := score_row last.toRow
        let direction := scanDirection sc
        let sr := position_sizing last.close last.atr direction
                    account_equity risk_pct stop_mult
        .ok { symbol := sym, timeframe := tf
              close := roundTo 6 last.close, score := roundTo 2 sc
              direction := direction, rsi := roundTo 2 last.rsi
              atr := roundTo 6 last.atr
              ema50_gt_200 := decide (last.ema200 < last.ema50)
              bb_width := roundTo 6 last.bb_width
              vol_z := roundTo 2 last.vol_z
              stop := roundTo 6 sr.stop_price, size := sr.size_units
              risk_dollars := roundTo 2 sr.risk_dollars
              notional_dollars := roundTo 2 sr.notional }

/-- The symbol loop of scan_universe (src/app.py:1450-1487): successes and
errors are collected independently per symbol, in list order. -/
def scanFold (fetch : String → Except String (List Candle))
    (features : List Candle → List DRow)
    (tf : String) (is_crypto : Bool)
    (account_equity risk_pct stop_mult min_vol : ℚ) :
    List String → List ScanRow × List ScanErr
  | [] => ([], [])
  | sym :: rest =>
    let p := scanFold fetch features tf is_crypto
               account_equity risk_pct stop_mult min_vol rest
    match scanOne fetch features tf is_crypto
            account_equity risk_pct stop_mult min_vol sym with
    | .ok r => (r :: p.1, p.2)
    | .error e => (p.1, { symbol := sym, timeframe := tf, error := e } :: p.2)

/-- Insertion step of the descending sort_values of src/app.py:1490. -/
def insertByScore (r : ScanRow) : List ScanRow → List ScanRow
  | [] => [r]
  | x :: xs => if x.score < r.score then r :: x :: xs else x :: insertByScore r xs

/-- Rows sorted by score descending (pandas sort_values(ascending=False);
its quicksort fixes no tie order, any descending order is faithful). -/
def sortByScore (l : List ScanRow) : List ScanRow :=
  l.foldr insertByScore []

/-- scan_universe from src/app.py:1448-1492: every symbol scanned
independently, successes sorted by score descending, errors in symbol
order. -/
def scan_universe (fetch : String → Except String (List Candle))
    (features : List Candle → List DRow)
    (tf : String) (is_crypto : Bool)
    (account_equity risk_pct stop_mult min_vol : ℚ)
    (symbols : List String) : List ScanRow × List ScanErr :=
  let p := scanFold fetch features tf is_crypto
             account_equity risk_pct stop_mult min_vol symbols
  (sortByScore p.1, p.2)

/-- max_positions from src/app.py:1953: the portfolio cap on simultaneously
open positions. -/
def max_positions : ℕ := 5

/-- One row of a symbol's df_features inside run_backtest, after dropna and
with the score column added (src/app.py:1967-1974): every field defined. -/
structure BTRow where
  low : ℚ
  high : ℚ
  close : ℚ
  atr : ℚ
  score : ℚ
  deriving DecidableEq, Repr

/-- An open position, the dict stored in active_positions
(src/app.py:2095-2103).  Dates are integer day numbers. -/
structure Position where
  symbol : String
  direction : String
  entry_price : ℚ
  entry_date : ℤ
  stop_price : ℚ
  position_size : ℚ
  position_value : ℚ
  deriving DecidableEq, Repr

/-- A closed trade, the record appended to results.trades
(src/app.py:2047-2059). -/
structure Trade where
  symbol : String
  direction : String
  entry_date : ℤ
  exit_date : ℤ
  entry_price : ℚ
  exit_price : ℚ
  position_size : ℚ
  trade_return : ℚ
  trade_pnl : ℚ
  exit_reason : String
  holding_days : ℤ
  deriving DecidableEq, Repr

/-- One equity-curve point (src/app.py:2111-2115). -/
structure EquityPoint where
  date : ℤ
  equity : ℚ
  trade_pnl : ℚ
  deriving DecidableEq, Repr

/-- The mutable replay state of run_backtest: current equity, the
active_positions dict (as an association list), the trade log, the equity
curve, daily returns, and drawdown tracking. -/
structure BTState where
  equity : ℚ
  positions : List (String × Position)
  trades : List Trade
  equity_curve : List EquityPoint
  daily_returns : List ℚ
  max_equity : ℚ
  max_drawdown : ℚ
  deriving DecidableEq, Repr

/-- Dictionary lookup in active_positions. -/
def lookupPos (ps : List (String × Position)) (sym : String) : Option Position :=
  (ps.find? fun p => p.1 = sym).map fun p => p.2

/-- del active_positions of a symbol (keys are unique in a dict, and a
position is only ever inserted when the key is absent). -/
def removePos (ps : List (String × Position)) (sym : String) : List (String × Position) :=
  ps.eraseP fun p => p.1 = sym

/-- The exit decision of src/app.py:2004-2035 for one open position on one
bar, returning (exit_triggered, exit_reason, exit_price).  The stop and
score checks are an if/elif chain per direction, but the 20-day time check
(src/app.py:2032) is a separate if that runs afterwards and overwrites any
previously set reason and price. -/
def exitCheck (min_score : ℚ) (pos : Position) (row : BTRow)
    (currentDate : ℤ) : Bool × String × ℚ :=
  let base :=
    if pos.direction = "long" then
      if row.low ≤ pos.stop_price then (true, "stop_loss", pos.stop_price)
      else if row.score < min_score / 2 then (true, "score_exit", row.close)
      else (false, "", row.close)
    else
      if pos.stop_price ≤ row.high then (true, "stop_loss", pos.stop_price)
      else if row.score < min_score / 2 then (true, "score_exit", row.close)
      else (false, "", row.close)
  if 20 ≤ currentDate - pos.entry_date then (true, "time_exit", row.close) else base

/-- The exit block of src/app.py:2004-2068: when the symbol has an open
position and the exit decision triggers, realize the trade, update equity,
and delete the position. -/
def exitStep (min_score : ℚ) (currentDate : ℤ) (st : BTState)
    (sym : String) (row : BTRow) : BTState :=
  match lookupPos st.positions sym with
  | none => st
  | some pos =>
    let ec := exitCheck min_score pos row currentDate
    if ec.1 then
      let exit_price := ec.2.2
      let tr := if pos.direction = "long" then
                  (exit_price - pos.entry_price) / pos.entry_price
                else (pos.entry_price - exit_price) / pos.entry_price
      let pnl := tr * pos.position_value
      { st with
        equity := st.equity + pnl
        positions := removePos st.positions sym
        trades := st.trades ++
          [{ symbol := sym, direction := pos.direction
             entry_date := pos.entry_date, exit_date := currentDate
             entry_price := pos.entry_price, exit_price := exit_price
             position_size := pos.position_size, trade_return := tr
             trade_pnl := pnl, exit_reason := ec.2.1
             holding_days := currentDate - pos.entry_date }] }
    else st

/-- The entry block of src/app.py:2070-2103, acting on the state left by
the exit block of the same loop iteration. -/
def entryStep (min_score risk_per_trade stop_atr_mult : ℚ)
    (currentDate : ℤ) (st1 : BTState) (sym : String) (row : BTRow) : BTState :=
  if lookupPos st1.positions sym = none ∧ st1.positions.length < max_positions
      ∧ min_score ≤ row.score ∧ 0 < st1.equity then
    let entry_price := row.close
    let direction := if 0 < row.score then "long" else "short"
    let stop_distance := stop_atr_mult * row.atr
    let stop_price := if direction = "long" then entry_price - stop_distance
                      else entry_price + stop_distance
    let risk_amount := st1.equity * risk_per_trade
    let position_size := risk_amount / |entry_price - stop_price|
    let position_value := position_size * entry_price
    let capped := st1.equity * (1/5) < position_value
    let pv := if capped then st1.equity * (1/5) else position_value
    let psz := if capped then pv / entry_price else position_size
    { st1 with positions := st1.positions ++
        [(sym, { symbol := sym, direction := direction
                 entry_price := entry_price, entry_date := currentDate
                 stop_price := stop_price, position_size := psz
                 position_value := pv })] }
  else st1

/-- Processing of one (symbol, bar) pair inside the date loop of
run_backtest (src/app.py:2002-2103): first the exit block on an existing
position, then the entry block on the state that results.  Rational
division is total (x / 0 = 0) where numpy float division by zero yields
infinity; that difference only affects sizing values on degenerate bars
(atr = 0 or close = 0), which no property below depends on. -/
def processSymbol (min_score risk_per_trade stop_atr_mult : ℚ)
    (currentDate : ℤ) (st : BTState) (sym : String) (row : BTRow) : BTState :=
  entryStep min_score risk_per_trade stop_atr_mult currentDate
    (exitStep min_score currentDate st sym row) sym row

/-- Lookup of a symbol's bar at a date (current_date in df_features.index,
src/app.py:1999). -/
def lookupRow (rows : List (ℤ × BTRow)) (d : ℤ) : Option BTRow :=
  (rows.find? fun p => p.1 = d).map fun p => p.2

/-- One pass of the outer date loop (src/app.py:1994-2122): every symbol
holding a bar at this date is processed in order, then the equity curve,
daily returns, and drawdown trackers are updated when equity changed. -/
def processDate (min_score risk_per_trade stop_atr_mult : ℚ)
    (data : List (String × List (ℤ × BTRow))) (st : BTState) (d : ℤ) : BTState :=
  let st1 := data.foldl
    (fun s p =>
      match lookupRow p.2 d with
      | some row => processSymbol min_score risk_per_trade stop_atr_mult d s p.1 row
      | none => s) st
  if st1.equity ≠ st.equity then
    let daily_pnl := st1.equity - st.equity
    let daily_return := if 0 < st.equity then daily_pnl / st.equity else 0
    let st2 := { st1 with
      daily_returns := st1.daily_returns ++ [daily_return]
      equity_curve := st1.equity_curve ++
        [({ date := d, equity := st1.equity, trade_pnl := daily_pnl } : EquityPoint)] }
    if st2.max_equity < st2.equity then { st2 with max_equity := st2.equity }
    else
      { st2 with max_drawdown := max st2.max_drawdown ((st2.max_equity - st2.equity) / st2.max_equity) }
  else st1

/-- Ascending insertion used to build the sorted unified date index. -/
def insertSorted (x : ℤ) : List ℤ → List ℤ
  | [] => [x]
  | y :: ys => if x ≤ y then x :: y :: ys else y :: insertSorted x ys

/-- sorted(all_dates) of src/app.py:1987. -/
def sortDates (l : List ℤ) : List ℤ :=
  l.foldr insertSorted []

/-- The unified timeline: union of every preloaded symbol's dates, without
duplicates, ascending (src/app.py:1955-1987). -/
def allDates (data : List (String × List (ℤ × BTRow))) : List ℤ :=
  sortDates ((data.flatMap fun p => p.2.map fun r => r.1).dedup)

/-- The timeframes treated as intraday by the range validation
(src/app.py:1934). -/
def intraday_timeframes : List String := ["1m", "5m", "15m", "30m", "1h"]

/-- The date-range validation at the top of run_backtest
(src/app.py:1917-1936), before any data work.  Dates are integer day
numbers, so days_diff is the difference of the two; the first matching
check wins. -/
def validateRange (start_date end_date : ℤ) (tf : String) : Option String :=
  let days_diff := end_date - start_date
  if days_diff ≤ 0 then
    some "Invalid date range: Start date must be before end date"
  else if days_diff < 30 then
    some "Backtest period must be at least 30 days for meaningful results"
  else if tf ∈ intraday_timeframes ∧ 60 < days_diff then
    some "Intraday backtests limited to 60 days max due to data provider constraints"
  else none

/-- The pre-load loop of run_backtest (src/app.py:1959-1981): per symbol,
fetch, check the 50-bar floor, compute features and scores; any failure
becomes one entry of the errors list and the loop moves on.  fetchB stands
for get_ohlcv (external input); featuresB stands for
compute_features(df).dropna() with the score column attached, keyed by
date.  Returns (symbol_data, errors), both in symbol order. -/
def preload (fetchB : String → Except String (List Candle))
    (featuresB : List Candle → List (ℤ × BTRow)) :
    List String → List (String × List (ℤ × BTRow)) × List String
  | [] => ([], [])
  | sym :: rest =>
    let (d, e) := preload fetchB featuresB rest
    match fetchB sym with
    | .error msg => (d, (sym ++ ": Data loading failed - " ++ msg) :: e)
    | .ok df =>
      if df.length < 50 then (d, (sym ++ ": Insufficient data") :: e)
      else
        match featuresB df with
        | [] => (d, (sym ++ ": Features calculation failed") :: e)
        | r :: rs => ((sym, r :: rs) :: d, e)

/-- The aggregate metrics record of src/app.py:2139-2199.  The
sharpe_ratio entry is omitted: it needs the square root of a rational
standard deviation, which has no exact rational value; no claim reads it.
profit_factor none models the float infinity of src/app.py:2163. -/
structure Metrics where
  initial_equity : ℚ
  final_equity : ℚ
  total_return : ℚ
  total_trades : ℕ
  winning_trades : ℕ
  losing_trades : ℕ
  win_rate : ℚ
  avg_win : ℚ
  avg_loss : ℚ
  profit_factor : Option ℚ
  max_drawdown : ℚ
  avg_holding_days : ℚ
  max_concurrent_positions : ℕ
  symbols_tested : ℕ
  deriving DecidableEq, Repr

/-- Metrics computation after the replay (src/app.py:2139-2199), with the
empty-trade-log branch of src/app.py:2182-2199. -/
def computeMetrics (initial_equity : ℚ) (symbols_tested : ℕ)
    (fin : BTState) : Metrics :=
  let trades := fin.trades
  let total := trades.length
  let wins := (trades.filter fun t => 0 < t.trade_pnl).length
  let losses := total - wins
  if total = 0 then
    { initial_equity := initial_equity, final_equity := fin.equity
      total_return := 0, total_trades := 0, winning_trades := 0
      losing_trades := 0, win_rate := 0, avg_win := 0, avg_loss := 0
      profit_factor := some 0, max_drawdown := 0, avg_holding_days := 0
      max_concurrent_positions := max_positions
      symbols_tested := symbols_tested }
  else
    let winsL := (trades.filter fun t => 0 < t.trade_pnl).map fun t => t.trade_pnl
    let lossL := (trades.filter fun t => t.trade_pnl < 0).map fun t => t.trade_pnl
    let avg_win := if 0 < wins then winsL.sum / (winsL.length : ℚ) else 0
    let avg_loss := if 0 < losses then lossL.sum / (lossL.length : ℚ) else 0
    { initial_equity := initial_equity, final_equity := fin.equity
      total_return := (fin.equity - initial_equity) / initial_equity
      total_trades := total, winning_trades := wins, losing_trades := losses
      win_rate := (wins : ℚ) / (total : ℚ)
      avg_win := avg_win, avg_loss := avg_loss
      profit_factor :=
        if avg_loss ≠ 0 ∧ 0 < losses then
          some |avg_win * wins / (|avg_loss| * (losses : ℚ))|
        else none
      max_drawdown := fin.max_drawdown
      avg_holding_days := ((trades.map fun t => t.holding_days).sum : ℚ) / (total : ℚ)
      max_concurrent_positions := max_positions
      symbols_tested := symbols_tested }

/-- Per-symbol breakdown record (src/app.py:2131-2137). -/
structure SymbolPerf where
  total_trades : ℕ
  winning_trades : ℕ
  total_pnl : ℚ
  avg_return : ℚ
  win_rate : ℚ
  deriving DecidableEq, Repr

/-- The per-symbol performance loop of src/app.py:2124-2137: a record per
requested symbol that produced at least one trade. -/
def symbolPerf (symbols : List String) (trades : List Trade) :
    List (String × SymbolPerf) :=
  symbols.filterMap fun sym =>
    let ts := trades.filter fun t => t.symbol = sym
    if ts.length = 0 then none
    else
      some (sym,
        { total_trades := ts.length
          winning_trades := (ts.filter fun t => 0 < t.trade_pnl).length
          total_pnl := (ts.map fun t => t.trade_pnl).sum
          avg_return := (ts.map fun t => t.trade_return).sum / (ts.length : ℚ)
          win_rate := ((ts.filter fun t => 0 < t.trade_pnl).length : ℚ) / (ts.length : ℚ) })

/-- The result bundle of run_backtest.  The fetched field records which
symbols get_ohlcv was called for (every requested symbol once validation
passes, none otherwise); dict keys absent from an early-return value
(errors, equity_curve) are modelled as empty. -/
structure BTResult where
  error : Option String
  trades : List Trade
  equity_curve : List EquityPoint
  metrics : Option Metrics
  symbol_performance : List (String × SymbolPerf)
  errors : List String
  fetched : List String
  deriving Repr

/-- run_backtest from src/app.py:1913-2201: range validation first and
fail-fast, then pre-load of every symbol, then the chronological replay
over the unified timeline, then metrics. -/
def run_backtest (fetchB : String → Except String (List Candle))
    (featuresB : List Candle → List (ℤ × BTRow))
    (symbols : List String) (start_date end_date : ℤ) (tf : String)
    (initial_equity risk_per_trade stop_atr_mult min_score : ℚ) : BTResult :=
  match validateRange start_date end_date tf with
  | some err =>
    { error := some err, trades := [], equity_curve := [], metrics := none
      symbol_performance := [], errors := [], fetched := [] }
  | none =>
    let (data, errs) := preload fetchB featuresB symbols
    if data.isEmpty then
      { error := some "No valid symbol data loaded", trades := []
        equity_curve := [], metrics := none, symbol_performance := []
        errors := [], fetched := symbols }
    else
      let st0 : BTState :=
        { equity := initial_equity, positions := [], trades := []
          equity_curve := [], daily_returns := []
          max_equity := initial_equity, max_drawdown := 0 }
      let fin := (allDates data).foldl
        (processDate min_score risk_per_trade stop_atr_mult data) st0
      { error := none, trades := fin.trades, equity_curve := fin.equity_curve
        metrics := some (computeMetrics initial_equity data.length fin)
        symbol_performance := symbolPerf symbols fin.trades
        errors := errs, fetched := symbols }

/-- A concrete all-defined feature row used to witness C2: close 100,
ema200 90, 20-bar high 105, 20-bar low 95, rsi 60, macd 1, vol z 1,
widths 3 and 2, atr 2. -/
def c2Row : FeatureRow :=
  { close := 100, high := 101, low := 99, volume := 1000
    ema50 := some 95, ema200 := some 90, rsi := some 60
    macd_hist := some 1, atr := some 2, bb_width := some 3
    bb_width_ma := some 2, vol_z := some 1
    close_20_max := some 105, close_20_min := some 95 }

/-- A concrete all-defined feature row over 25 constant closes at 5, used
to witness C9: its 20-bar rolling high and low both equal 5. -/
def c9Row : FeatureRow :=
  { close := 5, high := 6, low := 4, volume := 1000
    ema50 := some 5, ema200 := some 5, rsi := some 50
    macd_hist := some 0, atr := some 1, bb_width := some 1
    bb_width_ma := some 1, vol_z := some 0
    close_20_max := some 5, close_20_min := some 5 }

/-- A long position at entry 100 with stop 95, entered at day 0, used for
the C1 counterexample. -/
def c1Pos : Position :=
  { symbol := "AAA", direction := "long", entry_price := 100, entry_date := 0
    stop_price := 95, position_size := 1, position_value := 100 }

/-- A bar whose low 90 pierces the stop 95 while the score stays high. -/
def c1Row : BTRow :=
  { low := 90, high := 101, close := 100, atr := 1, score := 50 }

/-- Replay state holding the open c1Pos position. -/
def c1St : BTState :=
  { equity := 10000, positions := [("AAA", c1Pos)], trades := []
    equity_curve := [], daily_returns := [], max_equity := 10000
    max_drawdown := 0 }

/-- The initial replay state of run_backtest (src/app.py:1947-1953). -/
def initState (ie : ℚ) : BTState :=
  { equity := ie, positions := [], trades := [], equity_curve := []
    daily_returns := [], max_equity := ie, max_drawdown := 0 }

/-- Invariant used for C10: every open position and every logged trade of
a state has direction long. -/
def AllLong (st : BTState) : Prop :=
  (∀ p ∈ st.positions, p.2.direction = "long")
  ∧ ∀ t ∈ st.trades, t.direction = "long"

/-- C4: position_sizing puts the stop at close minus stop_mult times ATR
for the Bullish (Long) direction and close plus it otherwise; whenever the
per-unit risk, the absolute distance from close to the stop, is positive,
the unit count is exactly the floor of account_equity times risk_pct over
that distance, and the notional is units times close; when the per-unit
risk is not positive (ATR zero) the unit count is 0, with no exception
since the function is total. -/
theorem C4_position_sizing_exact (close atr eq rp sm : ℚ) :
    (position_sizing close atr "Bullish" eq rp sm).stop_price = close - sm * atr
    ∧ (position_sizing close atr "Bearish" eq rp sm).stop_price = close + sm * atr
    ∧ (0 < |close - (position_sizing close atr "Bullish" eq rp sm).stop_price| →
        (position_sizing close atr "Bullish" eq rp sm).size_units =
          ⌊eq * rp / |close - (position_sizing close atr "Bullish" eq rp sm).stop_price|⌋)
    ∧ (0 < |close - (position_sizing close atr "Bearish" eq rp sm).stop_price| →
        (position_sizing close atr "Bearish" eq rp sm).size_units =
          ⌊eq * rp / |close - (position_sizing close atr "Bearish" eq rp sm).stop_price|⌋)
    ∧ (|close - (position_sizing close atr "Bullish" eq rp sm).stop_price| ≤ 0 →
        (position_sizing close atr "Bullish" eq rp sm).size_units = 0)
    ∧ (|close - (position_sizing close atr "Bearish" eq rp sm).stop_price| ≤ 0 →
        (position_sizing close atr "Bearish" eq rp sm).size_units = 0)
    ∧ (position_sizing close atr "Bullish" eq rp sm).notional =
        (position_sizing close atr "Bullish" eq rp sm).size_units * close
    ∧ (position_sizing close atr "Bearish" eq rp sm).notional =
        (position_sizing close atr "Bearish" eq rp sm).size_units * close := by
  refine ⟨by simp [position_sizing], by simp [position_sizing],
    fun h => ?_, fun h => ?_, fun h => ?_, fun h => ?_,
    by simp [position_sizing], by simp [position_sizing]⟩ <;>
  · simp only [position_sizing] at h ⊢
    first
      | rw [if_neg (not_le.mpr h)]
      | rw [if_pos h]

/-- Witness for C4 at close 100, atr 2, equity 10000, risk 1 percent,
stop multiple 3/2 (per-unit risk 3, units 33), and at atr 0 (degenerate
case, units 0). -/
theorem C4_position_sizing_exact_witness :
    ((0:ℚ) < |(100:ℚ) - (position_sizing 100 2 "Bullish" 10000 (1/100) (3/2)).stop_price|
      ∧ (position_sizing 100 2 "Bullish" 10000 (1/100) (3/2)).size_units =
          ⌊(10000:ℚ) * (1/100) / |(100:ℚ) - (position_sizing 100 2 "Bullish" 10000 (1/100) (3/2)).stop_price|⌋)
    ∧ (|(100:ℚ) - (position_sizing 100 0 "Bullish" 10000 (1/100) (3/2)).stop_price| ≤ 0
      ∧ (position_sizing 100 0 "Bullish" 10000 (1/100) (3/2)).size_units = 0) :=
  ⟨⟨by norm_num [position_sizing],
    (C4_position_sizing_exact 100 2 10000 (1/100) (3/2)).2.2.1 (by norm_num [position_sizing])⟩,
   ⟨by norm_num [position_sizing],
    (C4_position_sizing_exact 100 0 10000 (1/100) (3/2)).2.2.2.2.1 (by norm_num [position_sizing])⟩⟩

/-- C7: min_bars_required is by its very type a function of the timeframe
string alone (no symbol or asset-class input), its value is at least 200
for the daily spellings, 350 for the hourly ones, 500 for 15 and 30
minutes, and 700 for 1 and 5 minutes; and the scanner refuses to score a
fetched series shorter than this minimum, producing the per-symbol error
instead of a result (src/app.py:1454). -/
theorem C7_min_bars_required_thresholds :
    (200 ≤ min_bars_required "1d" ∧ 200 ≤ min_bars_required "d")
    ∧ (350 ≤ min_bars_required "1h" ∧ 350 ≤ min_bars_required "60m")
    ∧ (500 ≤ min_bars_required "30m" ∧ 500 ≤ min_bars_required "15m")
    ∧ (700 ≤ min_bars_required "5m" ∧ 700 ≤ min_bars_required "1m")
    ∧ (∀ fetch features tf is_crypto aeq rp sm mv sym df,
        fetch sym = Except.ok df → df.length < min_bars_required tf →
        scanOne fetch features tf is_crypto aeq rp sm mv sym =
          Except.error "Not enough history") := by
  refine ⟨by decide, by decide, by decide, by decide,
    fun fetch features tf is_crypto aeq rp sm mv sym df hf hlen => ?_⟩
  simp [scanOne, hf, hlen]

/-- Witness for C7: a fetch returning an empty series for a daily scan is
refused with the history error. -/
theorem C7_min_bars_required_thresholds_witness :
    scanOne (fun _ => Except.ok []) (fun _ => []) "1d" false 10000 (1/100) (3/2) 0 "AAPL" =
      Except.error "Not enough history" :=
  C7_min_bars_required_thresholds.2.2.2.2
    (fun _ => Except.ok []) (fun _ => []) "1d" false 10000 (1/100) (3/2) 0 "AAPL" []
    rfl (by decide)

/-- Pushing a negation inside an if whose else branch is zero. -/
lemma neg_ite_zero (c : Prop) [Decidable c] (x : ℚ) :
    -(if c then x else 0) = (if c then -x else 0) := by
  split <;> simp

/-- The scanner direction string is Bullish exactly on nonnegative scores. -/
lemma scanDirection_bullish_iff (s : ℚ) : scanDirection s = "Bullish" ↔ 0 ≤ s := by
  unfold scanDirection
  split_ifs with h
  · simpa using h
  · exact iff_of_false (by decide) h

/-- C2: on a FeatureRow whose required derived fields are all defined (and
whose close is a positive price), score_row equals the weighted-rule sum of
the spec section 4.4 table, and the scanner's derived direction is Bullish
(Long) exactly when the score is nonnegative. -/
theorem C2_score_row_matches_spec (r : FeatureRow)
    (e hi lo rsi m vz bw bwm a : ℚ)
    (he : r.ema200 = some e) (hhi : r.close_20_max = some hi)
    (hlo : r.close_20_min = some lo) (hr : r.rsi = some rsi)
    (hm : r.macd_hist = some m) (hvz : r.vol_z = some vz)
    (hbw : r.bb_width = some bw) (hbwm : r.bb_width_ma = some bwm)
    (ha : r.atr = some a) (hcl : 0 < r.close) :
    score_row r = specScore r.close e hi lo rsi m vz bw bwm a
    ∧ (scanDirection (score_row r) = "Bullish" ↔ 0 ≤ score_row r) := by
  refine ⟨?_, scanDirection_bullish_iff _⟩
  have hcl' : ¬(r.close = 0) := hcl.ne'
  simp only [score_row, specScore, atr_pct, oGT, oLT, he, hhi, hlo, hr, hm,
    hvz, hbw, hbwm, ha, hcl', if_false, decide_eq_true_eq]
  rw [sub_eq_add_neg, sub_eq_add_neg, neg_ite_zero, neg_ite_zero]

/-- Witness for C2 at the concrete row c2Row. -/
theorem C2_score_row_matches_spec_witness :
    score_row c2Row = specScore 100 90 105 95 60 1 1 3 2 2
    ∧ (scanDirection (score_row c2Row) = "Bullish" ↔ 0 ≤ score_row c2Row) :=
  C2_score_row_matches_spec c2Row 90 105 95 60 1 1 3 2 2
    rfl rfl rfl rfl rfl rfl rfl rfl rfl (by norm_num [c2Row])

/-- A left fold of max never goes below its start value. -/
lemma foldl_max_le_self (xs : List ℚ) (a : ℚ) : a ≤ xs.foldl max a := by
  induction xs generalizing a with
  | nil => exact le_refl a
  | cons x xs ih => exact le_trans (le_max_left a x) (ih (max a x))

/-- Every member of a list is at most the left fold of max over it. -/
lemma mem_le_foldl_max (xs : List ℚ) (a x : ℚ) (hx : x ∈ xs) :
    x ≤ xs.foldl max a := by
  induction xs generalizing a with
  | nil => cases hx
  | cons y ys ih =>
    rcases List.mem_cons.mp hx with rfl | h
    · exact le_trans (le_max_right a x) (foldl_max_le_self ys (max a x))
    · exact ih (max a y) h

/-- A left fold of min never goes above its start value. -/
lemma foldl_min_ge_self (xs : List ℚ) (a : ℚ) : xs.foldl min a ≤ a := by
  induction xs generalizing a with
  | nil => exact le_refl a
  | cons x xs ih => exact le_trans (ih (min a x)) (min_le_left a x)

/-- Every member of a list is at least the left fold of min over it. -/
lemma foldl_min_le_mem (xs : List ℚ) (a x : ℚ) (hx : x ∈ xs) :
    xs.foldl min a ≤ x := by
  induction xs generalizing a with
  | nil => cases hx
  | cons y ys ih =>
    rcases List.mem_cons.mp hx with rfl | h
    · exact le_trans (foldl_min_ge_self ys (min a x)) (min_le_right a x)
    · exact ih (min a y) h

/-- The window maximum of a list bounds each of its members from above. -/
lemma windowMax_le (w : List ℚ) (x : ℚ) (hx : x ∈ w) :
    ∃ m, windowMax w = some m ∧ x ≤ m := by
  cases w with
  | nil => cases hx
  | cons y ys =>
    refine ⟨ys.foldl max y, rfl, ?_⟩
    rcases List.mem_cons.mp hx with h | h
    · exact h ▸ foldl_max_le_self ys y
    · exact mem_le_foldl_max ys y x h

/-- The window minimum of a list bounds each of its members from below. -/
lemma windowMin_le (w : List ℚ) (x : ℚ) (hx : x ∈ w) :
    ∃ m, windowMin w = some m ∧ m ≤ x := by
  cases w with
  | nil => cases hx
  | cons y ys =>
    refine ⟨ys.foldl min y, rfl, ?_⟩
    rcases List.mem_cons.mp hx with h | h
    · exact h ▸ foldl_min_ge_self ys y
    · exact foldl_min_le_mem ys y x h

/-- The close at index i belongs to the 20-bar window that ends at i. -/
lemma get_mem_window (l : List ℚ) (i : ℕ) (hi : i < l.length) (h19 : 19 ≤ i) :
    l.get ⟨i, hi⟩ ∈ (l.take (i + 1)).drop (i + 1 - 20) := by
  have hlen_take : (l.take (i + 1)).length = i + 1 := by
    rw [List.length_take]; omega
  have hlt : 19 < ((l.take (i + 1)).drop (i + 1 - 20)).length := by
    rw [List.length_drop, hlen_take]; omega
  have hi' : i + 1 - 20 + 19 < (l.take (i + 1)).length := by
    rw [hlen_take]; omega
  have key : ((l.take (i + 1)).drop (i + 1 - 20)).get ⟨19, hlt⟩ = l.get ⟨i, hi⟩ := by
    rw [List.get_eq_getElem, List.get_eq_getElem]
    rw [List.getElem_drop (l.take (i + 1))]
    rw [List.getElem_take l]
    congr 1
    show i + 1 - 20 + 19 = i
    omega
  rw [← key]
  exact List.get_mem _ 19 hlt

/-- C9: a feature row whose close_20_max and close_20_min come from the
20-bar rolling windows of compute_features at index i (defined, so i at
least 19) has close at most the rolling high and at least the rolling low,
because the window includes the current bar; hence the +25 breakout branch
and the -25 breakdown branch of score_row never fire on pipeline rows, and
the attainable score lies in the interval [-55, 85]. -/
theorem C9_rolling_window_contains_close (closes : List ℚ) (i : ℕ)
    (hi : i < closes.length) (h19 : 19 ≤ i) (r : FeatureRow)
    (hc : r.close = closes.get ⟨i, hi⟩)
    (hmax : r.close_20_max = rollMax 20 closes i)
    (hmin : r.close_20_min = rollMin 20 closes i) :
    (∃ m, r.close_20_max = some m ∧ r.close ≤ m)
    ∧ (∃ m, r.close_20_min = some m ∧ m ≤ r.close)
    ∧ oGT (some r.close) r.close_20_max = false
    ∧ oLT (some r.close) r.close_20_min = false
    ∧ -55 ≤ score_row r ∧ score_row r ≤ 85 := by
  have hnot : ¬(i + 1 < 20) := by omega
  have hmem : r.close ∈ (closes.take (i + 1)).drop (i + 1 - 20) := by
    rw [hc]; exact get_mem_window closes i hi h19
  obtain ⟨mx, hmx, hlemx⟩ := windowMax_le _ _ hmem
  obtain ⟨mn, hmn, hlemn⟩ := windowMin_le _ _ hmem
  have hmax' : r.close_20_max = some mx := by
    rw [hmax, rollMax, if_neg hnot, hmx]
  have hmin' : r.close_20_min = some mn := by
    rw [hmin, rollMin, if_neg hnot, hmn]
  have hb2 : oGT (some r.close) r.close_20_max = false := by
    rw [hmax']
    simpa [oGT] using not_lt.mpr hlemx
  have hb3 : oLT (some r.close) r.close_20_min = false := by
    rw [hmin']
    simpa [oLT] using not_lt.mpr hlemn
  have e2 : (if oGT (some r.close) r.close_20_max then (25:ℚ) else 0) = 0 := by
    simp [hb2]
  have e3 : (if oLT (some r.close) r.close_20_min then (25:ℚ) else 0) = 0 := by
    simp [hb3]
  have h1l : (-25:ℚ) ≤ (if oGT (some r.close) r.ema200 then (25:ℚ) else -25) := by
    split <;> norm_num
  have h1u : (if oGT (some r.close) r.ema200 then (25:ℚ) else -25) ≤ 25 := by
    split <;> norm_num
  have h4l : (-10:ℚ) ≤ (if oGT r.rsi (some 50) then (10:ℚ) else -10) := by
    split <;> norm_num
  have h4u : (if oGT r.rsi (some 50) then (10:ℚ) else -10) ≤ 10 := by
    split <;> norm_num
  have h5l : (-10:ℚ) ≤ (if oGT r.macd_hist (some 0) then (10:ℚ) else -10) := by
    split <;> norm_num
  have h5u : (if oGT r.macd_hist (some 0) then (10:ℚ) else -10) ≤ 10 := by
    split <;> norm_num
  have h6l : (0:ℚ) ≤ (if oGT r.vol_z (some (1/2)) then (8:ℚ) else 0) := by
    split <;> norm_num
  have h6u : (if oGT r.vol_z (some (1/2)) then (8:ℚ) else 0) ≤ 8 := by
    split <;> norm_num
  have h7l : (0:ℚ) ≤ (if oGT r.bb_width r.bb_width_ma then (7:ℚ) else 0) := by
    split <;> norm_num
  have h7u : (if oGT r.bb_width r.bb_width_ma then (7:ℚ) else 0) ≤ 7 := by
    split <;> norm_num
  have h8l : (0:ℚ) ≤ (if oLT (atr_pct r) (some (1/25)) then (5:ℚ) else 0) := by
    split <;> norm_num
  have h8u : (if oLT (atr_pct r) (some (1/25)) then (5:ℚ) else 0) ≤ 5 := by
    split <;> norm_num
  have h9l : (0:ℚ) ≤ (if oGT r.rsi (some 80) then (10:ℚ) else 0) := by
    split <;> norm_num
  have h9u : (if oGT r.rsi (some 80) then (10:ℚ) else 0) ≤ 10 := by
    split <;> norm_num
  have h10l : (0:ℚ) ≤ (if oLT r.rsi (some 20) then (10:ℚ) else 0) := by
    split <;> norm_num
  have h10u : (if oLT r.rsi (some 20) then (10:ℚ) else 0) ≤ 10 := by
    split <;> norm_num
  refine ⟨⟨mx, hmax', hlemx⟩, ⟨mn, hmin', hlemn⟩, hb2, hb3, ?_, ?_⟩
  · unfold score_row
    rw [e2, e3]
    linarith
  · unfold score_row
    rw [e2, e3]
    linarith

/-- Witness for C9 at index 20 of 25 constant closes. -/
theorem C9_rolling_window_contains_close_witness :
    (∃ m, c9Row.close_20_max = some m ∧ c9Row.close ≤ m)
    ∧ (∃ m, c9Row.close_20_min = some m ∧ m ≤ c9Row.close)
    ∧ oGT (some c9Row.close) c9Row.close_20_max = false
    ∧ oLT (some c9Row.close) c9Row.close_20_min = false
    ∧ -55 ≤ score_row c9Row ∧ score_row c9Row ≤ 85 :=
  C9_rolling_window_contains_close (List.replicate 25 5) 20 (by norm_num)
    (by norm_num) c9Row (by norm_num [c9Row])
    (by norm_num [c9Row, rollMax, windowMax, List.replicate])
    (by norm_num [c9Row, rollMin, windowMin, List.replicate])

/-- The ewm recursion with a smoothing weight in [0,1] keeps nonnegative
series nonnegative. -/
lemma foldl_ewm_nonneg (al : ℚ) (h0 : 0 ≤ al) (h1 : al ≤ 1) (xs : List ℚ)
    (a : ℚ) (ha : 0 ≤ a) (hxs : ∀ x ∈ xs, 0 ≤ x) :
    0 ≤ xs.foldl (fun acc y => (1 - al) * acc + al * y) a := by
  induction xs generalizing a with
  | nil => exact ha
  | cons x rest ih =>
    apply ih
    · have hx : 0 ≤ x := hxs x (List.mem_cons_self x rest)
      have ha1 : 0 ≤ (1 - al) * a := mul_nonneg (by linarith) ha
      have ha2 : 0 ≤ al * x := mul_nonneg h0 hx
      show 0 ≤ (1 - al) * a + al * x
      linarith
    · exact fun z hz => hxs z (List.mem_cons_of_mem x hz)

/-- A Wilder average of a nonnegative series is nonnegative. -/
lemma ewmAlpha_nonneg (xs : List ℚ) (hxs : ∀ x ∈ xs, 0 ≤ x) (y : ℚ)
    (h : ewmAlpha (1/14) xs = some y) : 0 ≤ y := by
  cases xs with
  | nil => simp [ewmAlpha] at h
  | cons x rest =>
    simp only [ewmAlpha, Option.some.injEq] at h
    rw [← h]
    exact foldl_ewm_nonneg (1/14) (by norm_num) (by norm_num) rest x
      (hxs x (List.mem_cons_self x rest))
      fun z hz => hxs z (List.mem_cons_of_mem x hz)

/-- Counterexample to C8 as stated: a fully constant close series is
non-decreasing and has Wilder average loss 0, yet its RSI is NaN (0/0),
not a saturation near 100. -/
theorem C8_rsi_constant_series_is_nan :
    avgLoss [1, 1, 1] = some 0 ∧ List.Chain' (· ≤ ·) [(1:ℚ), 1, 1]
    ∧ rsiLast [(1:ℚ), 1, 1] = none := by
  refine ⟨?_, ?_, ?_⟩ <;>
    norm_num [avgLoss, avgGain, rsiLast, ewmAlpha, diffs, List.chain'_cons]

/-- C8 amended: whenever the Wilder average loss is defined and nonzero,
RSI is defined and lies in [0, 100]; when the average loss is 0 and the
average gain is nonzero (non-decreasing closes with at least one strict
rise), RSI saturates to exactly 100; the remaining avg-loss-0 case (fully
constant history, average gain also 0) is NaN. -/
theorem C8_rsi_bounds_amended (closes : List ℚ) (up dn : ℚ)
    (hup : avgGain closes = some up) (hdn : avgLoss closes = some dn) :
    (dn ≠ 0 → ∃ rv, rsiLast closes = some rv ∧ 0 ≤ rv ∧ rv ≤ 100)
    ∧ (dn = 0 → up ≠ 0 → rsiLast closes = some 100) := by
  have hup0 : 0 ≤ up := by
    refine ewmAlpha_nonneg _ ?_ up hup
    intro x hx
    simp only [List.mem_map] at hx
    obtain ⟨d, _, rfl⟩ := hx
    exact le_max_right d 0
  have hdn0 : 0 ≤ dn := by
    refine ewmAlpha_nonneg _ ?_ dn hdn
    intro x hx
    simp only [List.mem_map] at hx
    obtain ⟨d, _, rfl⟩ := hx
    exact le_max_right (-d) 0
  constructor
  · intro hne
    have hpos : 0 < dn := lt_of_le_of_ne hdn0 (Ne.symm hne)
    have hrs : 0 ≤ up / dn := div_nonneg hup0 (le_of_lt hpos)
    have h1 : (0:ℚ) < 1 + up / dn := by linarith
    refine ⟨100 - 100 / (1 + up / dn), ?_, ?_, ?_⟩
    · simp [rsiLast, hup, hdn, hne]
    · have hle : 100 / (1 + up / dn) ≤ 100 := div_le_self (by norm_num) (by linarith)
      linarith
    · have hgt : 0 < 100 / (1 + up / dn) := by positivity
      linarith
  · intro h0 hne
    simp [rsiLast, hup, hdn, h0, hne]

/-- Witness for the amended C8: closes 0,1,1 are non-decreasing with a
strict rise, so RSI is exactly 100; closes 2,1,2 have a nonzero average
loss, so RSI is defined and in [0, 100]. -/
theorem C8_rsi_bounds_amended_witness :
    rsiLast [(0:ℚ), 1, 1] = some 100
    ∧ (∃ rv, rsiLast [(2:ℚ), 1, 2] = some rv ∧ 0 ≤ rv ∧ rv ≤ 100) :=
  ⟨(C8_rsi_bounds_amended [0, 1, 1] (13/14) 0
      (by norm_num [avgGain, ewmAlpha, diffs])
      (by norm_num [avgLoss, ewmAlpha, diffs])).2 rfl (by norm_num),
   (C8_rsi_bounds_amended [2, 1, 2] (1/14) (13/14)
      (by norm_num [avgGain, ewmAlpha, diffs])
      (by norm_num [avgLoss, ewmAlpha, diffs])).1 (by norm_num)⟩

/-- The entry block leaves the trade log untouched. -/
lemma entryStep_trades (ms rpt sam : ℚ) (d : ℤ) (st1 : BTState)
    (sym : String) (row : BTRow) :
    (entryStep ms rpt sam d st1 sym row).trades = st1.trades := by
  unfold entryStep
  split_ifs <;> rfl

/-- The exit block never grows the position dict. -/
lemma exitStep_positions_le (ms : ℚ) (d : ℤ) (st : BTState)
    (sym : String) (row : BTRow) :
    (exitStep ms d st sym row).positions.length ≤ st.positions.length := by
  unfold exitStep
  rcases hl : lookupPos st.positions sym with _ | pos
  · simp only [hl]
    exact Nat.le_refl _
  · simp only [hl]
    split_ifs
    all_goals first
      | exact Nat.le_refl _
      | (show (removePos st.positions sym).length ≤ st.positions.length
         exact List.length_eraseP_le _)

/-- The entry block respects the strict capacity guard of
src/app.py:2072. -/
lemma entryStep_positions_le (ms rpt sam : ℚ) (d : ℤ) (st1 : BTState)
    (sym : String) (row : BTRow) (h : st1.positions.length ≤ max_positions) :
    (entryStep ms rpt sam d st1 sym row).positions.length ≤ max_positions := by
  simp only [entryStep]
  split_ifs with hc
  all_goals first
    | exact h
    | (show (st1.positions ++ [_]).length ≤ max_positions
       rw [List.length_append]
       have hlt := hc.2.1
       simp only [List.length_cons, List.length_nil]
       omega)

/-- One (symbol, bar) step never pushes the open-position count above the
cap: an exit can only shrink the dict, and an entry is guarded by the
strict capacity check. -/
lemma processSymbol_positions_le (ms rpt sam : ℚ) (d : ℤ) (st : BTState)
    (sym : String) (row : BTRow) (h : st.positions.length ≤ max_positions) :
    (processSymbol ms rpt sam d st sym row).positions.length ≤ max_positions := by
  unfold processSymbol
  exact entryStep_positions_le ms rpt sam d _ sym row
    (le_trans (exitStep_positions_le ms d st sym row) h)

/-- A full date pass preserves the cap (the curve bookkeeping at the end
of the loop body never touches positions). -/
lemma processDate_positions_le (ms rpt sam : ℚ)
    (data : List (String × List (ℤ × BTRow))) (d : ℤ) (st : BTState)
    (h : st.positions.length ≤ max_positions) :
    (processDate ms rpt sam data st d).positions.length ≤ max_positions := by
  have hfold : ∀ (l : List (String × List (ℤ × BTRow))) (s : BTState),
      s.positions.length ≤ max_positions →
      (l.foldl (fun s p =>
        match lookupRow p.2 d with
        | some row => processSymbol ms rpt sam d s p.1 row
        | none => s) s).positions.length ≤ max_positions := by
    intro l
    induction l with
    | nil => exact fun s hs => hs
    | cons p ps ih =>
      intro s hs
      apply ih
      rcases hlk : lookupRow p.2 d with _ | row
      · simpa [hlk] using hs
      · simpa [hlk] using processSymbol_positions_le ms rpt sam d s p.1 row hs
  simp only [processDate]
  split_ifs <;> exact hfold data st h

/-- Counterexample to C1 as stated: on day 25 the stop condition holds
(low 90 at most stop 95, long), yet because the holding time reached 20
days the separate time check of src/app.py:2032 overwrites the decision,
and the produced trade exits as time_exit at the bar close 100, not as
stop_loss at the stop price 95. -/
theorem C1_time_exit_overrides_stop_cex :
    c1Row.low ≤ c1Pos.stop_price ∧ c1Pos.direction = "long"
    ∧ (20:ℤ) ≤ 25 - c1Pos.entry_date
    ∧ ((processSymbol 10 (1/100) (3/2) 25 c1St "AAA" c1Row).trades.map
        fun t => (t.exit_reason, t.exit_price)) = [("time_exit", c1Row.close)]
    ∧ c1Row.close ≠ c1Pos.stop_price := by
  refine ⟨by norm_num [c1Pos, c1Row], rfl, by norm_num [c1Pos], ?_,
    by norm_num [c1Pos, c1Row]⟩
  norm_num [processSymbol, entryStep, exitStep, exitCheck, lookupPos,
    removePos, c1St, c1Pos, c1Row, max_positions, List.find?]

/-- C1 amended: within the first 20 days of holding (so the overriding
time check stays off), the stop check has first priority: on any bar where
the stop is hit, the exit decision of the bar is stop_loss with fill
exactly at the stored stop price, even when the score-decay condition also
holds, and the produced trade record carries that reason and price. -/
theorem C1_stop_priority_before_20_days (ms rpt sam : ℚ) (d : ℤ)
    (st : BTState) (sym : String) (pos : Position) (row : BTRow)
    (hpos : lookupPos st.positions sym = some pos)
    (hd : d - pos.entry_date < 20)
    (hstop : (pos.direction = "long" ∧ row.low ≤ pos.stop_price)
           ∨ (pos.direction ≠ "long" ∧ pos.stop_price ≤ row.high)) :
    ∃ t, (processSymbol ms rpt sam d st sym row).trades = st.trades ++ [t]
      ∧ t.exit_reason = "stop_loss" ∧ t.exit_price = pos.stop_price
      ∧ t.symbol = sym ∧ t.direction = pos.direction := by
  have hec : exitCheck ms pos row d = (true, "stop_loss", pos.stop_price) := by
    unfold exitCheck
    rw [if_neg (by omega : ¬(20 ≤ d - pos.entry_date))]
    rcases hstop with ⟨hdir, hlow⟩ | ⟨hdir, hhigh⟩
    · rw [if_pos hdir, if_pos hlow]
    · rw [if_neg hdir, if_pos hhigh]
  simp only [processSymbol, entryStep_trades, exitStep, hpos, hec, if_true]
  exact ⟨_, rfl, rfl, rfl, rfl, rfl⟩

/-- Witness for the amended C1 on day 5 of holding: the stop fill is at
the stop price 95 with reason stop_loss. -/
theorem C1_stop_priority_before_20_days_witness :
    ∃ t, (processSymbol 10 (1/100) (3/2) 5 c1St "AAA" c1Row).trades =
        c1St.trades ++ [t]
      ∧ t.exit_reason = "stop_loss" ∧ t.exit_price = c1Pos.stop_price
      ∧ t.symbol = "AAA" ∧ t.direction = c1Pos.direction :=
  C1_stop_priority_before_20_days 10 (1/100) (3/2) 5 c1St "AAA" c1Pos c1Row
    (by norm_num [c1St, lookupPos, List.find?])
    (by norm_num [c1Pos])
    (Or.inl ⟨rfl, by norm_num [c1Pos, c1Row]⟩)

/-- C3: starting from the engine's initial state (no open positions),
after any number of date passes of the replay loop the count of
simultaneously open positions never exceeds max_positions, whose default
is 5; moreover every single (symbol, bar) step preserves the cap from any
state already under it, so every intermediate state of a replay obeys it
as well.  An entry happens only while the symbol is absent from the
dict and the total count is strictly below the cap. -/
theorem C3_max_concurrent_positions_cap (ms rpt sam ie : ℚ)
    (data : List (String × List (ℤ × BTRow))) (dates : List ℤ) :
    (dates.foldl (processDate ms rpt sam data) (initState ie)).positions.length
        ≤ max_positions
    ∧ max_positions = 5
    ∧ (∀ st : BTState, st.positions.length ≤ max_positions →
        ∀ (d : ℤ) (sym : String) (row : BTRow),
        (processSymbol ms rpt sam d st sym row).positions.length ≤ max_positions) := by
  refine ⟨?_, rfl, fun st hst d sym row =>
    processSymbol_positions_le ms rpt sam d st sym row hst⟩
  have : ∀ (ds : List ℤ) (st : BTState), st.positions.length ≤ max_positions →
      (ds.foldl (processDate ms rpt sam data) st).positions.length ≤ max_positions := by
    intro ds
    induction ds with
    | nil => exact fun st hs => hs
    | cons d rest ih =>
      exact fun st hs => ih _ (processDate_positions_le ms rpt sam data d st hs)
  exact this dates (initState ie) (by simp [initState])

/-- Witness for C3: a single stop-hit day on the one-position state from
the initial state keeps the count within the cap. -/
theorem C3_max_concurrent_positions_cap_witness :
    (([0, 25] : List ℤ).foldl
        (processDate 10 (1/100) (3/2) [("AAA", [((0:ℤ), c1Row)])])
        (initState 10000)).positions.length ≤ max_positions
    ∧ max_positions = 5
    ∧ (processSymbol 10 (1/100) (3/2) 25 (initState 10000) "AAA" c1Row).positions.length
        ≤ max_positions :=
  ⟨(C3_max_concurrent_positions_cap 10 (1/100) (3/2) 10000
      [("AAA", [((0:ℤ), c1Row)])] [0, 25]).1,
   rfl,
   (C3_max_concurrent_positions_cap 10 (1/100) (3/2) 10000 [] []).2.2
     (initState 10000) (by simp [initState]) 25 "AAA" c1Row⟩

/-- A dictionary hit comes from a pair stored in the list. -/
lemma lookupPos_mem (ps : List (String × Position)) (sym : String)
    (pos : Position) (h : lookupPos ps sym = some pos) :
    ∃ pr ∈ ps, pr.2 = pos := by
  unfold lookupPos at h
  rcases hf : ps.find? fun p => p.1 = sym with _ | pr
  · rw [hf] at h
    cases h
  · rw [hf] at h
    exact ⟨pr, List.mem_of_find?_eq_some hf, by injection h⟩

/-- The exit block preserves the all-long invariant: the closed trade
copies the direction of a stored position. -/
lemma exitStep_allLong (ms : ℚ) (d : ℤ) (st : BTState) (sym : String)
    (row : BTRow) (h : AllLong st) : AllLong (exitStep ms d st sym row) := by
  unfold exitStep
  rcases hl : lookupPos st.positions sym with _ | pos
  · simpa [hl] using h
  · obtain ⟨pr, hpr, hpr2⟩ := lookupPos_mem st.positions sym pos hl
    have hdir : pos.direction = "long" := hpr2 ▸ h.1 pr hpr
    simp only [hl]
    split_ifs
    all_goals first
      | exact h
      | (refine ⟨?_, ?_⟩
         · intro p hp
           exact h.1 p (List.mem_of_mem_eraseP hp)
         · intro t ht
           rcases List.mem_append.mp ht with ht | ht
           · exact h.2 t ht
           · rw [List.mem_singleton.mp ht]
             exact hdir)

/-- The entry block preserves the all-long invariant when the minimum
score threshold is positive: entry needs score at least the threshold, and
direction short needs score at most zero. -/
lemma entryStep_allLong (ms rpt sam : ℚ) (d : ℤ) (st1 : BTState)
    (sym : String) (row : BTRow) (hms : 0 < ms) (h : AllLong st1) :
    AllLong (entryStep ms rpt sam d st1 sym row) := by
  by_cases hcond : lookupPos st1.positions sym = none
      ∧ st1.positions.length < max_positions ∧ ms ≤ row.score ∧ 0 < st1.equity
  · have hscore : 0 < row.score := lt_of_lt_of_le hms hcond.2.2.1
    simp only [entryStep, if_pos hcond, if_pos hscore]
    refine ⟨?_, h.2⟩
    intro p hp
    rcases List.mem_append.mp hp with hp | hp
    · exact h.1 p hp
    · rw [List.mem_singleton.mp hp]
  · simp only [entryStep, if_neg hcond]
    exact h

/-- One (symbol, bar) step preserves the all-long invariant for positive
thresholds. -/
lemma processSymbol_allLong (ms rpt sam : ℚ) (d : ℤ) (st : BTState)
    (sym : String) (row : BTRow) (hms : 0 < ms) (h : AllLong st) :
    AllLong (processSymbol ms rpt sam d st sym row) := by
  unfold processSymbol
  exact entryStep_allLong ms rpt sam d _ sym row hms
    (exitStep_allLong ms d st sym row h)

/-- A full date pass preserves the all-long invariant. -/
lemma processDate_allLong (ms rpt sam : ℚ)
    (data : List (String × List (ℤ × BTRow))) (d : ℤ) (st : BTState)
    (hms : 0 < ms) (h : AllLong st) :
    AllLong (processDate ms rpt sam data st d) := by
  have hfold : ∀ (l : List (String × List (ℤ × BTRow))) (s : BTState),
      AllLong s →
      AllLong (l.foldl (fun s p =>
        match lookupRow p.2 d with
        | some row => processSymbol ms rpt sam d s p.1 row
        | none => s) s) := by
    intro l
    induction l with
    | nil => exact fun s hs => hs
    | cons p ps ih =>
      intro s hs
      apply ih
      rcases hlk : lookupRow p.2 d with _ | row
      · simpa [hlk] using hs
      · simpa [hlk] using processSymbol_allLong ms rpt sam d s p.1 row hms hs
  simp only [processDate]
  split_ifs <;> exact hfold data st h

/-- C10: when the configured minimum score threshold is strictly
positive, every trade the replay produces from the initial state has
direction long, because entry requires score at least the threshold while
direction short is assigned only for nonpositive scores. -/
theorem C10_positive_min_score_all_trades_long (ms rpt sam ie : ℚ)
    (hms : 0 < ms) (data : List (String × List (ℤ × BTRow)))
    (dates : List ℤ) :
    ∀ t ∈ (dates.foldl (processDate ms rpt sam data) (initState ie)).trades,
      t.direction = "long" := by
  have hinv : ∀ (ds : List ℤ) (st : BTState), AllLong st →
      AllLong (ds.foldl (processDate ms rpt sam data) st) := by
    intro ds
    induction ds with
    | nil => exact fun st hs => hs
    | cons dd rest ih =>
      exact fun st hs => ih _ (processDate_allLong ms rpt sam data dd st hms hs)
  refine (hinv dates (initState ie) ⟨?_, ?_⟩).2
  · intro p hp
    cases hp
  · intro t ht
    cases ht

/-- Witness for C10: a two-day replay of one symbol whose score stays at
50 enters long on day 0 and exits on day 25, and every resulting trade is
long. -/
theorem C10_positive_min_score_all_trades_long_witness :
    (([0, 25] : List ℤ).foldl
        (processDate 10 (1/100) (3/2) [("AAA", [((0:ℤ), c1Row), ((25:ℤ), c1Row)])])
        (initState 10000)).trades.Forall (fun t => t.direction = "long") :=
  List.forall_iff_forall_mem.mpr
    (C10_positive_min_score_all_trades_long 10 (1/100) (3/2) 10000 (by norm_num)
      [("AAA", [((0:ℤ), c1Row), ((25:ℤ), c1Row)])] [0, 25])

/-- C5: the backtest date-range validation fires exactly when the end
date is at most the start date, or the span is under 30 days, or the
timeframe is intraday and the span exceeds 60 days; whenever it fires,
run_backtest returns the error result with empty trades, metrics,
curves and performance, and performs no fetch at all (fetched is empty);
in particular endDate equal to startDate always fires, so such a request
is rejected before any data access. -/
theorem C5_range_validation_fails_fast :
    (∀ (s e : ℤ) (tf : String),
      validateRange s e tf ≠ none ↔
        (e - s ≤ 0 ∨ e - s < 30 ∨ (tf ∈ intraday_timeframes ∧ 60 < e - s)))
    ∧ (∀ fetchB featuresB (symbols : List String) (s e : ℤ) (tf : String)
        (ie rpt sam ms : ℚ) (err : String),
        validateRange s e tf = some err →
        run_backtest fetchB featuresB symbols s e tf ie rpt sam ms =
          { error := some err, trades := [], equity_curve := []
            metrics := none, symbol_performance := [], errors := []
            fetched := [] })
    ∧ (∀ (s : ℤ) (tf : String), validateRange s s tf ≠ none) := by
  have hval : ∀ (s e : ℤ) (tf : String),
      validateRange s e tf ≠ none ↔
        (e - s ≤ 0 ∨ e - s < 30 ∨ (tf ∈ intraday_timeframes ∧ 60 < e - s)) := by
    intro s e tf
    simp only [validateRange]
    split_ifs with h1 h2 h3
    · exact iff_of_true (by simp) (Or.inl h1)
    · exact iff_of_true (by simp) (Or.inr (Or.inl h2))
    · exact iff_of_true (by simp) (Or.inr (Or.inr h3))
    · refine iff_of_false (by simp) ?_
      rintro (h | h | h)
      · exact h1 h
      · exact h2 h
      · exact h3 h
  refine ⟨hval, ?_, ?_⟩
  · intro fetchB featuresB symbols s e tf ie rpt sam ms err hv
    simp only [run_backtest, hv]
  · intro s tf
    rw [hval]
    exact Or.inl (by omega)

/-- Witness for C5: a same-day request is rejected with the range error,
with no trades, no metrics, and no fetch, before the (failing) fetch
oracle could ever be consulted. -/
theorem C5_range_validation_fails_fast_witness :
    run_backtest (fun _ => Except.error "network") (fun _ => []) ["AAPL"]
        0 0 "1d" 10000 (1/100) (3/2) 10 =
      { error := some "Invalid date range: Start date must be before end date"
        trades := [], equity_curve := [], metrics := none
        symbol_performance := [], errors := [], fetched := [] } :=
  C5_range_validation_fails_fast.2.1 (fun _ => Except.error "network")
    (fun _ => []) ["AAPL"] 0 0 "1d" 10000 (1/100) (3/2) 10
    "Invalid date range: Start date must be before end date" (by decide)

/-- Membership through one descending insertion. -/
lemma mem_insertByScore (x r : ScanRow) (l : List ScanRow) :
    r ∈ insertByScore x l ↔ r = x ∨ r ∈ l := by
  induction l with
  | nil => simp [insertByScore]
  | cons y ys ih =>
    simp only [insertByScore]
    split_ifs
    · simp [List.mem_cons]
    · simp only [List.mem_cons, ih]
      tauto

/-- The descending sort is a permutation as far as membership goes. -/
lemma mem_sortByScore (l : List ScanRow) (r : ScanRow) :
    r ∈ sortByScore l ↔ r ∈ l := by
  induction l with
  | nil => simp [sortByScore]
  | cons x xs ih =>
    have hstep : sortByScore (x :: xs) = insertByScore x (sortByScore xs) := rfl
    rw [hstep, mem_insertByScore, ih]
    simp [List.mem_cons]

/-- A success row carries the symbol it was scanned for. -/
lemma scanOne_ok_symbol (fetch : String → Except String (List Candle))
    (features : List Candle → List DRow) (tf : String) (cr : Bool)
    (aeq rp sm mv : ℚ) (s : String) (r : ScanRow)
    (h : scanOne fetch features tf cr aeq rp sm mv s = Except.ok r) :
    r.symbol = s := by
  unfold scanOne at h
  rcases hf : fetch s with e | df
  · simp only [hf] at h
    cases h
  · simp only [hf] at h
    by_cases h1 : df.length < min_bars_required tf
    · rw [if_pos h1] at h
      cases h
    · rw [if_neg h1] at h
      by_cases h2 : cr = false ∧ dollar_volume df < mv
      · rw [if_pos h2] at h
        cases h
      · rw [if_neg h2] at h
        rcases hl : (features df).getLast? with _ | last
        · simp only [hl] at h
          cases h
        · simp only [hl] at h
          cases h
          rfl

/-- Every success row of the scan loop comes from scanning one of the
requested symbols. -/
lemma scanFold_rows_sound (fetch : String → Except String (List Candle))
    (features : List Candle → List DRow) (tf : String) (cr : Bool)
    (aeq rp sm mv : ℚ) :
    ∀ (syms : List String) (r : ScanRow),
      r ∈ (scanFold fetch features tf cr aeq rp sm mv syms).1 →
      ∃ s ∈ syms, scanOne fetch features tf cr aeq rp sm mv s = Except.ok r := by
  intro syms
  induction syms with
  | nil =>
    intro r hr
    simp [scanFold] at hr
  | cons a rest ih =>
    intro r hr
    simp only [scanFold] at hr
    rcases hso : scanOne fetch features tf cr aeq rp sm mv a with e | r0
    · rw [hso] at hr
      obtain ⟨s, hs, h⟩ := ih r hr
      exact ⟨s, List.mem_cons_of_mem a hs, h⟩
    · rw [hso] at hr
      have hr' : r ∈ r0 :: (scanFold fetch features tf cr aeq rp sm mv rest).1 := hr
      rcases List.mem_cons.mp hr' with rfl | hmem
      · exact ⟨a, List.mem_cons_self a rest, hso⟩
      · obtain ⟨s, hs, h⟩ := ih r hmem
        exact ⟨s, List.mem_cons_of_mem a hs, h⟩

/-- A symbol that is not scanned leaves no error entry. -/
lemma scanFold_errs_not_mem (fetch : String → Except String (List Candle))
    (features : List Candle → List DRow) (tf : String) (cr : Bool)
    (aeq rp sm mv : ℚ) (sym : String) :
    ∀ (syms : List String), sym ∉ syms →
      ((scanFold fetch features tf cr aeq rp sm mv syms).2.filter
        fun er => er.symbol == sym) = [] := by
  intro syms
  induction syms with
  | nil => intro _; rfl
  | cons a rest ih =>
    intro hnot
    have ha : ¬(a = sym) := fun hh => hnot (hh ▸ List.mem_cons_self a rest)
    have hrest : sym ∉ rest := fun hh => hnot (List.mem_cons_of_mem a hh)
    rcases hso : scanOne fetch features tf cr aeq rp sm mv a with e | r0
    · have hstep :
          ((scanFold fetch features tf cr aeq rp sm mv (a :: rest)).2.filter
            fun er => er.symbol == sym) =
          (({ symbol := a, timeframe := tf, error := e } : ScanErr) ::
            (scanFold fetch features tf cr aeq rp sm mv rest).2).filter
            (fun er => er.symbol == sym) := by
        simp only [scanFold, hso]
      rw [hstep, List.filter_cons]
      simp only [beq_iff_eq, ha, if_false]
      exact ih hrest
    · have hstep :
          ((scanFold fetch features tf cr aeq rp sm mv (a :: rest)).2.filter
            fun er => er.symbol == sym) =
          ((scanFold fetch features tf cr aeq rp sm mv rest).2.filter
            fun er => er.symbol == sym) := by
        simp only [scanFold, hso]
      rw [hstep]
      exact ih hrest

/-- When the failing symbol appears exactly once, the error list holds
exactly one entry for it, carrying the symbol, the timeframe, and the
failure reason. -/
lemma scanFold_errs_filter_eq (fetch : String → Except String (List Candle))
    (features : List Candle → List DRow) (tf : String) (cr : Bool)
    (aeq rp sm mv : ℚ) (sym e : String)
    (hfail : scanOne fetch features tf cr aeq rp sm mv sym = Except.error e) :
    ∀ (syms : List String), syms.count sym = 1 →
      ((scanFold fetch features tf cr aeq rp sm mv syms).2.filter
        fun er => er.symbol == sym) =
      [{ symbol := sym, timeframe := tf, error := e }] := by
  intro syms
  induction syms with
  | nil =>
    intro hc
    simp at hc
  | cons a rest ih =>
    intro hc
    by_cases ha : a = sym
    · subst ha
      have hzero : rest.count a = 0 := by
        have := List.count_cons_self a rest ▸ hc
        omega
      have hnot : a ∉ rest := List.count_eq_zero.mp hzero
      have hstep :
          ((scanFold fetch features tf cr aeq rp sm mv (a :: rest)).2.filter
            fun er => er.symbol == a) =
          (({ symbol := a, timeframe := tf, error := e } : ScanErr) ::
            (scanFold fetch features tf cr aeq rp sm mv rest).2).filter
            (fun er => er.symbol == a) := by
        simp only [scanFold, hfail]
      rw [hstep, List.filter_cons]
      simp only [beq_self_eq_true, if_true]
      rw [scanFold_errs_not_mem fetch features tf cr aeq rp sm mv a rest hnot]
    · have hone : rest.count sym = 1 := by
        rw [List.count_cons] at hc
        simpa [ha] using hc
      rcases hso : scanOne fetch features tf cr aeq rp sm mv a with e0 | r0
      · have hstep :
            ((scanFold fetch features tf cr aeq rp sm mv (a :: rest)).2.filter
              fun er => er.symbol == sym) =
            (({ symbol := a, timeframe := tf, error := e0 } : ScanErr) ::
              (scanFold fetch features tf cr aeq rp sm mv rest).2).filter
              (fun er => er.symbol == sym) := by
          simp only [scanFold, hso]
        rw [hstep, List.filter_cons]
        simp only [beq_iff_eq, ha, if_false]
        exact ih hone
      · have hstep :
            ((scanFold fetch features tf cr aeq rp sm mv (a :: rest)).2.filter
              fun er => er.symbol == sym) =
            ((scanFold fetch features tf cr aeq rp sm mv rest).2.filter
              fun er => er.symbol == sym) := by
          simp only [scanFold, hso]
        rw [hstep]
        exact ih hone

/-- Erasing the one failing symbol from the request list leaves the
success rows untouched. -/
lemma scanFold_rows_erase (fetch : String → Except String (List Candle))
    (features : List Candle → List DRow) (tf : String) (cr : Bool)
    (aeq rp sm mv : ℚ) (sym e : String)
    (hfail : scanOne fetch features tf cr aeq rp sm mv sym = Except.error e) :
    ∀ (syms : List String),
      (scanFold fetch features tf cr aeq rp sm mv (syms.erase sym)).1 =
      (scanFold fetch features tf cr aeq rp sm mv syms).1 := by
  intro syms
  induction syms with
  | nil => rfl
  | cons a rest ih =>
    by_cases ha : a = sym
    · subst ha
      rw [List.erase_cons_head]
      have hstep : (scanFold fetch features tf cr aeq rp sm mv (a :: rest)).1 =
          (scanFold fetch features tf cr aeq rp sm mv rest).1 := by
        simp only [scanFold, hfail]
      rw [hstep]
    · rw [List.erase_cons_tail (by simpa using ha)]
      rcases hso : scanOne fetch features tf cr aeq rp sm mv a with e0 | r0
      · have h1 : (scanFold fetch features tf cr aeq rp sm mv
            (a :: rest.erase sym)).1 =
            (scanFold fetch features tf cr aeq rp sm mv (rest.erase sym)).1 := by
          simp only [scanFold, hso]
        have h2 : (scanFold fetch features tf cr aeq rp sm mv (a :: rest)).1 =
            (scanFold fetch features tf cr aeq rp sm mv rest).1 := by
          simp only [scanFold, hso]
        rw [h1, h2, ih]
      · have h1 : (scanFold fetch features tf cr aeq rp sm mv
            (a :: rest.erase sym)).1 =
            r0 :: (scanFold fetch features tf cr aeq rp sm mv (rest.erase sym)).1 := by
          simp only [scanFold, hso]
        have h2 : (scanFold fetch features tf cr aeq rp sm mv (a :: rest)).1 =
            r0 :: (scanFold fetch features tf cr aeq rp sm mv rest).1 := by
          simp only [scanFold, hso]
        rw [h1, h2, ih]

/-- C6: when a symbol occurring once in the scan list fails (fetch,
history check, or feature computation — any error outcome of its
per-symbol pipeline), it contributes exactly one error entry carrying
symbol, timeframe and reason, it never appears among the success rows,
and the success rows are exactly those of the same scan without it. -/
theorem C6_scanner_failure_isolation
    (fetch : String → Except String (List Candle))
    (features : List Candle → List DRow) (tf : String) (cr : Bool)
    (aeq rp sm mv : ℚ) (symbols : List String) (sym e : String)
    (hcount : symbols.count sym = 1)
    (hfail : scanOne fetch features tf cr aeq rp sm mv sym = Except.error e) :
    ((scan_universe fetch features tf cr aeq rp sm mv symbols).2.filter
        fun er => er.symbol == sym) =
      [{ symbol := sym, timeframe := tf, error := e }]
    ∧ (∀ r ∈ (scan_universe fetch features tf cr aeq rp sm mv symbols).1,
        r.symbol ≠ sym)
    ∧ (scan_universe fetch features tf cr aeq rp sm mv (symbols.erase sym)).1 =
      (scan_universe fetch features tf cr aeq rp sm mv symbols).1 := by
  refine ⟨?_, ?_, ?_⟩
  · exact scanFold_errs_filter_eq fetch features tf cr aeq rp sm mv sym e
      hfail symbols hcount
  · intro r hr hsymeq
    have hr' : r ∈ sortByScore
        (scanFold fetch features tf cr aeq rp sm mv symbols).1 := hr
    rw [mem_sortByScore] at hr'
    obtain ⟨s, _, hok⟩ := scanFold_rows_sound fetch features tf cr aeq rp sm mv
      symbols r hr'
    have hss : r.symbol = s :=
      scanOne_ok_symbol fetch features tf cr aeq rp sm mv s r hok
    rw [hss.symm.trans hsymeq, hfail] at hok
    cases hok
  · show sortByScore _ = sortByScore _
    exact congrArg sortByScore
      (scanFold_rows_erase fetch features tf cr aeq rp sm mv sym e hfail symbols)

/-- Witness for C6: a one-symbol scan whose fetch always fails puts the
symbol in the error list once and produces no rows. -/
theorem C6_scanner_failure_isolation_witness :
    ((scan_universe (fun _ => Except.error "boom") (fun _ => []) "1d" false
        10000 (1/100) (3/2) 0 ["BAD"]).2.filter
        fun er => er.symbol == "BAD") =
      [{ symbol := "BAD", timeframe := "1d", error := "boom" }]
    ∧ (∀ r ∈ (scan_universe (fun _ => Except.error "boom") (fun _ => []) "1d"
        false 10000 (1/100) (3/2) 0 ["BAD"]).1, r.symbol ≠ "BAD")
    ∧ (scan_universe (fun _ => Except.error "boom") (fun _ => []) "1d" false
        10000 (1/100) (3/2) 0 (["BAD"].erase "BAD")).1 =
      (scan_universe (fun _ => Except.error "boom") (fun _ => []) "1d" false
        10000 (1/100) (3/2) 0 ["BAD"]).1 :=
  C6_scanner_failure_isolation (fun _ => Except.error "boom") (fun _ => [])
    "1d" false 10000 (1/100) (3/2) 0 ["BAD"] "BAD" "boom" (by decide) rfl

end MSP
